import Mathlib

/-!
Verification of the TD-Sequential setup-counting engine of the `td_stock`
repository against its specification.

The definitions below are a shallow embedding of the Python source:
  * `validate_price`, `validate_volume`, `validateRow`, `validate_kline_data`
    embed `DataValidator` of `src/utils/validators.py`;
  * `dedupByDate`, `sortByDate`, `clean_kline_data` embed
    `DataCleaner.clean_kline_data` of the same file;
  * `buySetupFlag`, `sellSetupFlag`, `buyCount`, `sellCount`, `setupSignal`,
    `signalPosition`, `annotate`, `calculate_td_setup` embed
    `TDSequentialCalculator.calculate_td_setup` and `_mark_setup_signals`
    of `src/core/td_calc.py`;
  * `get_signal_stocks` and `get_signal_summary` embed the aggregator
    methods of the same class.

Prices are modelled as exact rationals; Python's `round(x, 2)` is modelled
as round-half-even to two decimal places (`round2`).  Python exceptions are
modelled with `Except`: `ValErr` stands for `ValidationException` and
`CalcError` for the exceptions `calculate_td_setup` can raise
(`TDCalculationException` for the empty/short-input checks, a propagated
`ValidationException` for a failed validation).
-/

/-- Floor of a rational number, computed on the numerator/denominator pair. -/
def qfloor (q : ℚ) : ℤ := Int.fdiv q.num (q.den : ℤ)

/-- Round a rational to the nearest integer, ties to even
(the behaviour of Python's builtin `round`). -/
def roundHalfEven (q : ℚ) : ℤ :=
  let f := qfloor q
  let r := q - (f : ℚ)
  if r < 1/2 then f
  else if 1/2 < r then f + 1
  else if f % 2 = 0 then f else f + 1

/-- `round(x, 2)` of `src/utils/validators.py:79`: round to 2 decimal places. -/
def round2 (q : ℚ) : ℚ := (roundHalfEven (q * 100) : ℚ) / 100

/-- A raw OHLCV row as handed to the validator.  The field `openv` stands for
the source's `open` column (`open` is a reserved word in Lean). -/
structure RawBar where
  date : ℤ
  openv : ℚ
  high : ℚ
  low : ℚ
  close : ℚ
  volume : ℤ
deriving DecidableEq

/-- A validated bar (output of `DataValidator.validate_kline_data`). -/
structure Bar where
  date : ℤ
  openv : ℚ
  high : ℚ
  low : ℚ
  close : ℚ
  volume : ℤ
deriving DecidableEq

def dRaw : RawBar := ⟨0, 0, 0, 0, 0, 0⟩

def dBar : Bar := ⟨0, 0, 0, 0, 0, 0⟩

/-- `ValidationException` reasons of `src/utils/validators.py`. -/
inductive ValErr where
  | negativePrice : ValErr
  | priceOutOfRange : ValErr
  | negativeVolume : ValErr
  | priceLogic : ValErr
  | noValidBars : ValErr
  | insufficientData10 : ValErr
deriving DecidableEq

/-- `DataValidator.validate_price` (`src/utils/validators.py:67-81`):
reject negative or > 10000 prices, round the result to 2 decimals. -/
def validate_price (p : ℚ) : Except ValErr ℚ :=
  if p < 0 then .error .negativePrice
  else if 10000 < p then .error .priceOutOfRange
  else .ok (round2 p)

/-- `DataValidator.validate_volume` (`src/utils/validators.py:83-95`). -/
def validate_volume (v : ℤ) : Except ValErr ℤ :=
  if v < 0 then .error .negativeVolume else .ok v

/-- One iteration of the row loop of `DataValidator.validate_kline_data`
(`src/utils/validators.py:120-149`): validate each field in source order,
then check the OHLC consistency relations on the validated values. -/
def validateRow (r : RawBar) : Except ValErr Bar :=
  match validate_price r.openv, validate_price r.high, validate_price r.low,
        validate_price r.close, validate_volume r.volume with
  | .ok o, .ok hi, .ok lo, .ok c, .ok v =>
    if hi < max o c then .error .priceLogic
    else if min o c < lo then .error .priceLogic
    else .ok ⟨r.date, o, hi, lo, c, v⟩
  | .error e, _, _, _, _ => .error e
  | _, .error e, _, _, _ => .error e
  | _, _, .error e, _, _ => .error e
  | _, _, _, .error e, _ => .error e
  | _, _, _, _, .error e => .error e

/-- `DataValidator.validate_kline_data` (`src/utils/validators.py:112-154`):
rows failing validation are dropped (with a warning); the whole series fails
only when no valid row remains. -/
def validate_kline_data (rows : List RawBar) : Except ValErr (List Bar) :=
  if (rows.filterMap (fun r => (validateRow r).toOption)).isEmpty then
    .error .noValidBars
  else .ok (rows.filterMap (fun r => (validateRow r).toOption))

/-- Date-based de-duplication keeping the first occurrence
(pandas `drop_duplicates(subset=['date'])`, `src/utils/validators.py:219`). -/
def dedupByDate (seen : List ℤ) : List Bar → List Bar
  | [] => []
  | b :: rest =>
    if b.date ∈ seen then dedupByDate seen rest
    else b :: dedupByDate (b.date :: seen) rest

/-- Insert a bar into a list sorted ascending by date. -/
def insertByDate (b : Bar) : List Bar → List Bar
  | [] => [b]
  | x :: xs => if b.date ≤ x.date then b :: x :: xs else x :: insertByDate b xs

/-- Ascending sort by date (pandas `sort_values('date')`,
`src/utils/validators.py:222`). -/
def sortByDate : List Bar → List Bar
  | [] => []
  | b :: rest => insertByDate b (sortByDate rest)

/-- `DataCleaner.clean_kline_data` (`src/utils/validators.py:212-235`):
validate, de-duplicate by date, sort ascending by date, and require at least
10 remaining bars. -/
def clean_kline_data (rows : List RawBar) : Except ValErr (List Bar) :=
  match validate_kline_data rows with
  | .error e => .error e
  | .ok l =>
    if (sortByDate (dedupByDate [] l)).length < 10 then
      .error .insufficientData10
    else .ok (sortByDate (dedupByDate [] l))

/-- The `buy_setup` column of `src/core/td_calc.py:77-78`: bar `i` is flagged
iff it lies in the loop range (`lookback ≤ i < len`) and
`close[i] < close[i-lookback]`. -/
def buySetupFlag (lb : ℕ) (cs : List ℚ) (i : ℕ) : Bool :=
  decide (lb ≤ i) && decide (i < cs.length) &&
    decide (cs.getD i 0 < cs.getD (i - lb) 0)

/-- The `sell_setup` column of `src/core/td_calc.py:88-89`: flagged iff
`close[i] > close[i-lookback]` inside the loop range. -/
def sellSetupFlag (lb : ℕ) (cs : List ℚ) (i : ℕ) : Bool :=
  decide (lb ≤ i) && decide (i < cs.length) &&
    decide (cs.getD (i - lb) 0 < cs.getD i 0)

/-- The `buy_setup_count` column (`src/core/td_calc.py:77-85`): inside the
loop range, on a flagged bar the count is the previous count plus one when
`i > lookback` and bar `i-1` was flagged, and `1` otherwise; on an unflagged
bar (and outside the loop range) it is `0`. -/
def buyCount (lb : ℕ) (cs : List ℚ) : ℕ → ℕ
  | 0 => if buySetupFlag lb cs 0 then 1 else 0
  | i + 1 =>
    if buySetupFlag lb cs (i + 1) then
      if lb < i + 1 && buySetupFlag lb cs i then buyCount lb cs i + 1 else 1
    else 0

/-- The `sell_setup_count` column (`src/core/td_calc.py:88-96`). -/
def sellCount (lb : ℕ) (cs : List ℚ) : ℕ → ℕ
  | 0 => if sellSetupFlag lb cs 0 then 1 else 0
  | i + 1 =>
    if sellSetupFlag lb cs (i + 1) then
      if lb < i + 1 && sellSetupFlag lb cs i then sellCount lb cs i + 1 else 1
    else 0

/-- The `setup_signal` column written by
`TDSequentialCalculator._mark_setup_signals` (`src/core/td_calc.py:124-136`):
`1` when the buy count equals the threshold, else `-1` when the sell count
equals the threshold, else `0`. -/
def setupSignal (lb th : ℕ) (cs : List ℚ) (i : ℕ) : ℤ :=
  if buyCount lb cs i = th then 1
  else if sellCount lb cs i = th then -1
  else 0

/-- The `signal_position` column of `_mark_setup_signals`. -/
def signalPosition (lb th : ℕ) (cs : List ℚ) (i : ℕ) : String :=
  if buyCount lb cs i = th then "below"
  else if sellCount lb cs i = th then "above"
  else ""

/-- A bar together with the columns added by `calculate_td_setup`. -/
structure AnnBar where
  date : ℤ
  openv : ℚ
  high : ℚ
  low : ℚ
  close : ℚ
  volume : ℤ
  buy_setup : Bool
  sell_setup : Bool
  buy_setup_count : ℕ
  sell_setup_count : ℕ
  setup_signal : ℤ
  signal_position : String
deriving DecidableEq

def dAnn : AnnBar := ⟨0, 0, 0, 0, 0, 0, false, false, 0, 0, 0, ""⟩

/-- Build the annotated bar at index `i` from a validated bar and the list of
validated closes. -/
def mkAnn (lb th : ℕ) (cs : List ℚ) (b : Bar) (i : ℕ) : AnnBar :=
  ⟨b.date, b.openv, b.high, b.low, b.close, b.volume,
   buySetupFlag lb cs i, sellSetupFlag lb cs i,
   buyCount lb cs i, sellCount lb cs i,
   setupSignal lb th cs i, signalPosition lb th cs i⟩

/-- The main loop plus `_mark_setup_signals` of `calculate_td_setup`
(`src/core/td_calc.py:59-99`), expressed per index over the validated bars. -/
def annotate (lb th : ℕ) (bars : List Bar) : List AnnBar :=
  (List.range bars.length).map fun i =>
    mkAnn lb th (bars.map Bar.close) (bars.getD i dBar) i

/-- Exceptions `calculate_td_setup` can raise: the empty-input and
short-input checks raise `TDCalculationException`
(`src/core/td_calc.py:47-54`); a failure of `validate_kline_data` propagates
as a `ValidationException`. -/
inductive CalcError where
  | emptyInput : CalcError
  | insufficientData : CalcError
  | validationFailed : ValErr → CalcError
deriving DecidableEq

/-- Whether the raised exception is a `TDCalculationException`
(as opposed to a propagated `ValidationException`). -/
def CalcError.isTDCalculationException : CalcError → Bool
  | .emptyInput => true
  | .insufficientData => true
  | .validationFailed _ => false

/-- `TDSequentialCalculator.calculate_td_setup` (`src/core/td_calc.py:34-111`):
reject empty input, reject input shorter than `lookback + 1` rows (checked on
the raw length, before validation), validate, then annotate. -/
def calculate_td_setup (lb th : ℕ) (rows : List RawBar) :
    Except CalcError (List AnnBar) :=
  if rows.isEmpty then .error .emptyInput
  else if rows.length < lb + 1 then .error .insufficientData
  else
    match validate_kline_data rows with
    | .error e => .error (.validationFailed e)
    | .ok bars => .ok (annotate lb th bars)

/-- One row of the aggregator's result table
(`signal_info` of `src/core/td_calc.py:217-224`). -/
structure SignalRecord where
  stock_code : String
  date : ℤ
  close_price : ℚ
  signal_type : String
  setup_count : ℕ
  signal_position : String
deriving DecidableEq

/-- The observable outcome of `get_signal_stocks`: the collected records plus
the `processed_count` and `error_count` tallies it maintains. -/
structure SignalScanResult where
  records : List SignalRecord
  processed : ℕ
  errors : ℕ
deriving DecidableEq

/-- One iteration of the loop of `get_signal_stocks`
(`src/core/td_calc.py:202-231`): empty data is skipped, a raised exception is
counted in `error_count`, and a latest-bar signal is appended to the table. -/
def stepSS (lb th : ℕ) (acc : SignalScanResult) (p : String × List RawBar) :
    SignalScanResult :=
  if p.2.isEmpty then { acc with processed := acc.processed + 1 }
  else
    match calculate_td_setup lb th p.2 with
    | .error _ =>
      { acc with processed := acc.processed + 1, errors := acc.errors + 1 }
    | .ok ann =>
      match ann.getLast? with
      | none =>
        { acc with processed := acc.processed + 1, errors := acc.errors + 1 }
      | some last =>
        if last.setup_signal ≠ 0 then
          { acc with
            processed := acc.processed + 1,
            records := acc.records ++
              [⟨p.1, last.date, last.close,
                if last.setup_signal = 1 then "buy" else "sell",
                if last.setup_signal = 1 then last.buy_setup_count
                else last.sell_setup_count,
                last.signal_position⟩] }
        else { acc with processed := acc.processed + 1 }

/-- `TDSequentialCalculator.get_signal_stocks` (`src/core/td_calc.py:183-240`):
an empty input map returns an empty table at once
(`src/core/td_calc.py:193-195`); otherwise the series are scanned in order. -/
def get_signal_stocks (lb th : ℕ) (stocks : List (String × List RawBar)) :
    SignalScanResult :=
  if stocks.isEmpty then ⟨[], 0, 0⟩
  else stocks.foldl (stepSS lb th) ⟨[], 0, 0⟩

/-- `TDSequentialCalculator.get_signal_summary` result
(`src/core/td_calc.py:293-344`).  The empty-input branch of the source omits
the `avg_setup_count` and `unique_signal_dates` keys, hence the `Option`
fields. -/
structure SignalSummary where
  total_signals : ℕ
  buy_signals : ℕ
  sell_signals : ℕ
  avg_setup_count : Option ℚ
  unique_signal_dates : Option ℕ
  signal_stocks : List SignalRecord
  signal_date : Option ℤ
deriving DecidableEq

/-- `TDSequentialCalculator.get_signal_summary` (`src/core/td_calc.py:293-344`):
an empty table yields the zero summary; otherwise counts, the mean setup
count rounded to two decimals, and the distinct-date count are computed. -/
def get_signal_summary (df : List SignalRecord) : SignalSummary :=
  if df.isEmpty then ⟨0, 0, 0, none, none, [], none⟩
  else
    ⟨df.length,
     (df.filter fun r => r.signal_type = "buy").length,
     (df.filter fun r => r.signal_type = "sell").length,
     some (round2 ((df.map fun r => (r.setup_count : ℚ)).sum / df.length)),
     some (df.map SignalRecord.date).eraseDups.length,
     df,
     (df.head?.map SignalRecord.date)⟩

deriving instance DecidableEq for Except

attribute [local semireducible] Rat.mul Rat.add Rat.sub Rat.inv Rat.ofScientific

/-- The signal record contributed by one series of the aggregator's loop:
`none` when the series is skipped (empty data, raised exception, or no signal
on the latest bar), `some` when its latest bar fired. -/
def recordOf (lb th : ℕ) (p : String × List RawBar) : Option SignalRecord :=
  if p.2.isEmpty then none
  else
    match calculate_td_setup lb th p.2 with
    | .error _ => none
    | .ok ann =>
      match ann.getLast? with
      | none => none
      | some last =>
        if last.setup_signal ≠ 0 then
          some ⟨p.1, last.date, last.close,
            if last.setup_signal = 1 then "buy" else "sell",
            if last.setup_signal = 1 then last.buy_setup_count
            else last.sell_setup_count,
            last.signal_position⟩
        else none

/-- Whether one series of the aggregator's loop increments `error_count`:
only a nonempty series on which the calculation raises does (an empty series
is skipped with `continue` before the calculation). -/
def errFlag (lb th : ℕ) (p : String × List RawBar) : Bool :=
  !p.2.isEmpty &&
    (match calculate_td_setup lb th p.2 with
     | .error _ => true
     | .ok ann => ann.getLast?.isNone)

/-- A raw bar with all four prices equal (trivially OHLC-consistent). -/
def mkSimpleRaw (d : ℤ) (c : ℚ) : RawBar := ⟨d, c, c, c, c, 1⟩

/-- Scenario A input: 20 daily bars with strictly decreasing closes. -/
def rows20 : List RawBar :=
  (List.range 20).map fun i => mkSimpleRaw i (100 - (i : ℚ))

/-- The annotated series the engine produces for `rows20`. -/
def ann20 : List AnnBar := (calculate_td_setup 4 3 rows20).toOption.getD []

/-- A series of length exactly 4 (= default lookback): too short. -/
def rows4 : List RawBar :=
  [mkSimpleRaw 0 10, mkSimpleRaw 1 9, mkSimpleRaw 2 8, mkSimpleRaw 3 7]

/-- Five raw bars of which the last violates `high ≥ max(open, close)`:
after the validator drops it only 4 bars (fewer than lookback + 1) remain. -/
def rowsC6 : List RawBar :=
  [mkSimpleRaw 0 10, mkSimpleRaw 1 9, mkSimpleRaw 2 8, mkSimpleRaw 3 7,
   ⟨4, 10, 5, 1, 3, 1⟩]

/-- Five individually valid bars with a duplicated date (3) and descending
date order. -/
def rowsC9 : List RawBar :=
  [mkSimpleRaw 3 10, mkSimpleRaw 3 9, mkSimpleRaw 2 8, mkSimpleRaw 1 7,
   mkSimpleRaw 0 6]

/-- Ten valid bars with distinct dates in scrambled order. -/
def rows10d : List RawBar :=
  [mkSimpleRaw 5 10, mkSimpleRaw 3 11, mkSimpleRaw 8 12, mkSimpleRaw 0 13,
   mkSimpleRaw 9 14, mkSimpleRaw 1 15, mkSimpleRaw 7 16, mkSimpleRaw 2 17,
   mkSimpleRaw 6 18, mkSimpleRaw 4 19]

/-- Nine bars whose last raw close (16.001) differs from the close 4 bars
earlier (16) by less than 0.005 and collides with it after rounding. -/
def rowsC10 : List RawBar :=
  [mkSimpleRaw 0 20, mkSimpleRaw 1 19, mkSimpleRaw 2 18, mkSimpleRaw 3 17,
   mkSimpleRaw 4 16, mkSimpleRaw 5 15, mkSimpleRaw 6 14, mkSimpleRaw 7 13,
   mkSimpleRaw 8 (16001/1000)]

/-- The annotated series the engine produces for `rowsC10`. -/
def annC10 : List AnnBar := (calculate_td_setup 4 3 rowsC10).toOption.getD []

/-- Seven decreasing bars: the buy run reaches 3 exactly on the last bar. -/
def rowsBuy7 : List RawBar :=
  (List.range 7).map fun i => mkSimpleRaw i (10 - (i : ℚ))

/-- Seven increasing bars: the sell run reaches 3 exactly on the last bar. -/
def rowsSell7 : List RawBar :=
  (List.range 7).map fun i => mkSimpleRaw i (1 + (i : ℚ))

/-- The annotated series the engine produces for `rowsBuy7`. -/
def annBuy7 : List AnnBar := (calculate_td_setup 4 3 rowsBuy7).toOption.getD []

/-- Three series of which two end on a fired signal and one is empty. -/
def stocksCE : List (String × List RawBar) :=
  [("000001", rowsBuy7), ("000002", rowsSell7), ("000003", [])]

/-- A small validated close series used to instantiate the recurrence. -/
def csW : List ℚ := [10, 9, 8, 7, 6, 5, 4, 3]

lemma buyCount_succ (lb : ℕ) (cs : List ℚ) (i : ℕ) :
    buyCount lb cs (i + 1) =
      if buySetupFlag lb cs (i + 1) then
        if lb < i + 1 && buySetupFlag lb cs i then buyCount lb cs i + 1 else 1
      else 0 := rfl

lemma sellCount_succ (lb : ℕ) (cs : List ℚ) (i : ℕ) :
    sellCount lb cs (i + 1) =
      if sellSetupFlag lb cs (i + 1) then
        if lb < i + 1 && sellSetupFlag lb cs i then sellCount lb cs i + 1 else 1
      else 0 := rfl

lemma buyCount_eq_zero {lb : ℕ} {cs : List ℚ} {i : ℕ}
    (h : buySetupFlag lb cs i = false) : buyCount lb cs i = 0 := by
  cases i <;> simp [buyCount, h]

lemma sellCount_eq_zero {lb : ℕ} {cs : List ℚ} {i : ℕ}
    (h : sellSetupFlag lb cs i = false) : sellCount lb cs i = 0 := by
  cases i <;> simp [sellCount, h]

lemma buyCount_pos_iff {lb : ℕ} {cs : List ℚ} {i : ℕ} :
    0 < buyCount lb cs i ↔ buySetupFlag lb cs i = true := by
  cases i <;> simp only [buyCount] <;> split <;> rename_i hf
  · simpa using hf
  · simpa using hf
  · constructor
    · intro _; simpa using hf
    · intro _; split <;> omega
  · simpa using hf

lemma sellCount_pos_iff {lb : ℕ} {cs : List ℚ} {i : ℕ} :
    0 < sellCount lb cs i ↔ sellSetupFlag lb cs i = true := by
  cases i <;> simp only [sellCount] <;> split <;> rename_i hf
  · simpa using hf
  · simpa using hf
  · constructor
    · intro _; simpa using hf
    · intro _; split <;> omega
  · simpa using hf

lemma flags_not_both {lb : ℕ} {cs : List ℚ} {i : ℕ} :
    ¬(buySetupFlag lb cs i = true ∧ sellSetupFlag lb cs i = true) := by
  simp only [buySetupFlag, sellSetupFlag, Bool.and_eq_true, decide_eq_true_eq]
  rintro ⟨⟨⟨-, -⟩, h1⟩, ⟨⟨-, -⟩, h2⟩⟩
  exact absurd h1 (not_lt.mpr (le_of_lt h2))

lemma counts_not_both {lb : ℕ} {cs : List ℚ} {i : ℕ} :
    ¬(0 < buyCount lb cs i ∧ 0 < sellCount lb cs i) := by
  rintro ⟨hb, hs⟩
  exact flags_not_both ⟨buyCount_pos_iff.mp hb, sellCount_pos_iff.mp hs⟩

lemma annotate_length (lb th : ℕ) (bars : List Bar) :
    (annotate lb th bars).length = bars.length := by
  simp [annotate]

lemma annotate_getD (lb th : ℕ) (bars : List Bar) (i : ℕ)
    (h : i < bars.length) :
    (annotate lb th bars).getD i dAnn =
      mkAnn lb th (bars.map Bar.close) (bars.getD i dBar) i := by
  unfold annotate
  rw [List.getD_eq_getElem _ _ (by simpa using h)]
  simp

lemma map_close_getD (bars : List Bar) (i : ℕ) (h : i < bars.length) :
    (bars.map Bar.close).getD i 0 = (bars.getD i dBar).close := by
  rw [List.getD_eq_getElem _ _ (by simpa using h),
      List.getD_eq_getElem _ _ h, List.getElem_map]

lemma calculate_ok {lb th : ℕ} {rows : List RawBar} {ann : List AnnBar}
    (h : calculate_td_setup lb th rows = .ok ann) :
    lb + 1 ≤ rows.length ∧
      ∃ bars, validate_kline_data rows = .ok bars ∧ ann = annotate lb th bars := by
  unfold calculate_td_setup at h
  split at h
  · exact absurd h (by simp)
  · split at h
    · exact absurd h (by simp)
    · rename_i h1 h2
      refine ⟨by omega, ?_⟩
      cases hv : validate_kline_data rows with
      | error e => rw [hv] at h; exact absurd h (by simp)
      | ok bars => rw [hv] at h; exact ⟨bars, rfl, by injection h with h; exact h.symm⟩

lemma counts_zero_of_lt_lb (lb : ℕ) (cs : List ℚ) {j : ℕ} (h : j < lb) :
    buyCount lb cs j = 0 ∧ sellCount lb cs j = 0 := by
  have hb : buySetupFlag lb cs j = false := by
    simp [buySetupFlag]; omega
  have hs : sellSetupFlag lb cs j = false := by
    simp [sellSetupFlag]; omega
  exact ⟨buyCount_eq_zero hb, sellCount_eq_zero hs⟩

/-- **C1** (Setup Counter recurrence).  For every validated close series and
every index `i ≥ lookback` inside the series: if `close[i] < close[i-lookback]`
then `buy_setup_count[i]` is `buy_setup_count[i-1] + 1` when bar `i-1` also
extended the bullish run (`i-1 ≥ lookback` and
`close[i-1] < close[i-1-lookback]`) and `1` otherwise, with
`sell_setup_count[i] = 0`; symmetrically for `close[i] > close[i-lookback]`;
on equality both counts are `0`; and every bar with index `< lookback` has
both counts `0`. -/
theorem td_setup_recurrence (lb : ℕ) (cs : List ℚ) (i : ℕ)
    (hlb : lb ≤ i) (hi : i < cs.length) :
    (cs.getD i 0 < cs.getD (i - lb) 0 →
      buyCount lb cs i =
        (if lb ≤ i - 1 ∧ cs.getD (i - 1) 0 < cs.getD (i - 1 - lb) 0
          then buyCount lb cs (i - 1) + 1 else 1) ∧
      sellCount lb cs i = 0) ∧
    (cs.getD (i - lb) 0 < cs.getD i 0 →
      sellCount lb cs i =
        (if lb ≤ i - 1 ∧ cs.getD (i - 1 - lb) 0 < cs.getD (i - 1) 0
          then sellCount lb cs (i - 1) + 1 else 1) ∧
      buyCount lb cs i = 0) ∧
    (cs.getD i 0 = cs.getD (i - lb) 0 →
      buyCount lb cs i = 0 ∧ sellCount lb cs i = 0) ∧
    (∀ j, j < lb → buyCount lb cs j = 0 ∧ sellCount lb cs j = 0) := by
  cases i with
  | zero =>
    have hlb0 : lb = 0 := by omega
    subst hlb0
    refine ⟨fun hc => absurd hc (lt_irrefl _), fun hc => absurd hc (lt_irrefl _),
      fun _ => ?_, fun j hj => absurd hj (Nat.not_lt_zero j)⟩
    have hb : buySetupFlag 0 cs 0 = false := by simp [buySetupFlag]
    have hs : sellSetupFlag 0 cs 0 = false := by simp [sellSetupFlag]
    exact ⟨buyCount_eq_zero hb, sellCount_eq_zero hs⟩
  | succ k =>
    simp only [Nat.add_sub_cancel]
    have hklen : k < cs.length := by omega
    refine ⟨?_, ?_, ?_, fun j hj => counts_zero_of_lt_lb lb cs hj⟩
    · intro hcmp
      have hflag : buySetupFlag lb cs (k + 1) = true := by
        simp only [buySetupFlag, Bool.and_eq_true, decide_eq_true_eq]
        exact ⟨⟨hlb, hi⟩, hcmp⟩
      have hsflag : sellSetupFlag lb cs (k + 1) = false := by
        cases hsf : sellSetupFlag lb cs (k + 1) with
        | false => rfl
        | true =>
          simp only [sellSetupFlag, Bool.and_eq_true, decide_eq_true_eq] at hsf
          exact absurd hsf.2 (not_lt.mpr (le_of_lt hcmp))
      refine ⟨?_, sellCount_eq_zero hsflag⟩
      rw [buyCount_succ, hflag, if_pos rfl]
      by_cases hc : lb ≤ k ∧ cs.getD k 0 < cs.getD (k - lb) 0
      · have hfk : buySetupFlag lb cs k = true := by
          simp only [buySetupFlag, Bool.and_eq_true, decide_eq_true_eq]
          exact ⟨⟨hc.1, hklen⟩, hc.2⟩
        have hguard : (lb < k + 1 && buySetupFlag lb cs k) = true := by
          simp only [Bool.and_eq_true, decide_eq_true_eq]
          exact ⟨by omega, hfk⟩
        rw [hguard, if_pos rfl, if_pos hc]
      · have hguard : (lb < k + 1 && buySetupFlag lb cs k) = false := by
          cases hfk : buySetupFlag lb cs k with
          | false => simp [hfk]
          | true =>
            exfalso
            simp only [buySetupFlag, Bool.and_eq_true, decide_eq_true_eq] at hfk
            exact hc ⟨hfk.1.1, hfk.2⟩
        rw [hguard, if_neg (by simp), if_neg hc]
    · intro hcmp
      have hflag : sellSetupFlag lb cs (k + 1) = true := by
        simp only [sellSetupFlag, Bool.and_eq_true, decide_eq_true_eq]
        exact ⟨⟨hlb, hi⟩, hcmp⟩
      have hbflag : buySetupFlag lb cs (k + 1) = false := by
        cases hbf : buySetupFlag lb cs (k + 1) with
        | false => rfl
        | true =>
          simp only [buySetupFlag, Bool.and_eq_true, decide_eq_true_eq] at hbf
          exact absurd hbf.2 (not_lt.mpr (le_of_lt hcmp))
      refine ⟨?_, buyCount_eq_zero hbflag⟩
      rw [sellCount_succ, hflag, if_pos rfl]
      by_cases hc : lb ≤ k ∧ cs.getD (k - lb) 0 < cs.getD k 0
      · have hfk : sellSetupFlag lb cs k = true := by
          simp only [sellSetupFlag, Bool.and_eq_true, decide_eq_true_eq]
          exact ⟨⟨hc.1, hklen⟩, hc.2⟩
        have hguard : (lb < k + 1 && sellSetupFlag lb cs k) = true := by
          simp only [Bool.and_eq_true, decide_eq_true_eq]
          exact ⟨by omega, hfk⟩
        rw [hguard, if_pos rfl, if_pos hc]
      · have hguard : (lb < k + 1 && sellSetupFlag lb cs k) = false := by
          cases hfk : sellSetupFlag lb cs k with
          | false => simp [hfk]
          | true =>
            exfalso
            simp only [sellSetupFlag, Bool.and_eq_true, decide_eq_true_eq] at hfk
            exact hc ⟨hfk.1.1, hfk.2⟩
        rw [hguard, if_neg (by simp), if_neg hc]
    · intro heq
      have hb : buySetupFlag lb cs (k + 1) = false := by
        cases hbf : buySetupFlag lb cs (k + 1) with
        | false => rfl
        | true =>
          simp only [buySetupFlag, Bool.and_eq_true, decide_eq_true_eq] at hbf
          exact absurd hbf.2 (by rw [heq]; exact lt_irrefl _)
      have hs : sellSetupFlag lb cs (k + 1) = false := by
        cases hsf : sellSetupFlag lb cs (k + 1) with
        | false => rfl
        | true =>
          simp only [sellSetupFlag, Bool.and_eq_true, decide_eq_true_eq] at hsf
          exact absurd hsf.2 (by rw [heq]; exact lt_irrefl _)
      exact ⟨buyCount_eq_zero hb, sellCount_eq_zero hs⟩

/-- Witness for `td_setup_recurrence`: the bullish case at `lb = 4`, `i = 5`
on the concrete decreasing series `csW`. -/
theorem td_setup_recurrence_witness :
    buyCount 4 csW 5 =
      (if 4 ≤ 5 - 1 ∧ csW.getD (5 - 1) 0 < csW.getD (5 - 1 - 4) 0
        then buyCount 4 csW (5 - 1) + 1 else 1) ∧
    sellCount 4 csW 5 = 0 :=
  (td_setup_recurrence 4 csW 5 (by decide) (by decide)).1 (by decide)

/-- **C4** (mutual exclusion).  On every bar of every annotated series
produced by `calculate_td_setup`, at most one of `buy_setup_count` and
`sell_setup_count` is nonzero. -/
theorem runs_mutual_exclusion (lb th : ℕ) (rows : List RawBar)
    (ann : List AnnBar) (h : calculate_td_setup lb th rows = .ok ann)
    (i : ℕ) (hi : i < ann.length) :
    ¬(0 < (ann.getD i dAnn).buy_setup_count ∧
      0 < (ann.getD i dAnn).sell_setup_count) := by
  obtain ⟨-, bars, hv, rfl⟩ := calculate_ok h
  rw [annotate_length] at hi
  rw [annotate_getD lb th bars i hi]
  exact counts_not_both

/-- Witness for `runs_mutual_exclusion` at the concrete series `rows20`,
bar 6. -/
theorem runs_mutual_exclusion_witness :
    ¬(0 < (ann20.getD 6 dAnn).buy_setup_count ∧
      0 < (ann20.getD 6 dAnn).sell_setup_count) :=
  runs_mutual_exclusion 4 3 rows20 ann20 (by decide) 6 (by decide)

/-- **C3** (signal classification threshold exactness).  On every bar of
every annotated series produced by the engine (with a positive threshold,
default 3): the bar is a Buy signal (`setup_signal = 1`,
`signal_position = "below"`) iff its buy count equals the threshold exactly,
a Sell signal (`setup_signal = -1`, `signal_position = "above"`) iff its sell
count equals the threshold exactly, and a bar whose run has already passed
the threshold (count `threshold + 1` or `threshold + 2`) carries no
signal. -/
theorem signal_threshold_exactness (lb th : ℕ) (rows : List RawBar)
    (ann : List AnnBar) (hth : 1 ≤ th)
    (h : calculate_td_setup lb th rows = .ok ann) (i : ℕ)
    (hi : i < ann.length) :
    (((ann.getD i dAnn).setup_signal = 1 ∧
        (ann.getD i dAnn).signal_position = "below") ↔
      (ann.getD i dAnn).buy_setup_count = th) ∧
    (((ann.getD i dAnn).setup_signal = -1 ∧
        (ann.getD i dAnn).signal_position = "above") ↔
      (ann.getD i dAnn).sell_setup_count = th) ∧
    ((ann.getD i dAnn).buy_setup_count = th + 1 ∨
      (ann.getD i dAnn).buy_setup_count = th + 2 ∨
      (ann.getD i dAnn).sell_setup_count = th + 1 ∨
      (ann.getD i dAnn).sell_setup_count = th + 2 →
      (ann.getD i dAnn).setup_signal = 0) := by
  obtain ⟨-, bars, hv, rfl⟩ := calculate_ok h
  rw [annotate_length] at hi
  rw [annotate_getD lb th bars i hi]
  set cs := bars.map Bar.close with hcs
  show ((setupSignal lb th cs i = 1 ∧ signalPosition lb th cs i = "below") ↔
      buyCount lb cs i = th) ∧
    ((setupSignal lb th cs i = -1 ∧ signalPosition lb th cs i = "above") ↔
      sellCount lb cs i = th) ∧
    (buyCount lb cs i = th + 1 ∨ buyCount lb cs i = th + 2 ∨
      sellCount lb cs i = th + 1 ∨ sellCount lb cs i = th + 2 →
      setupSignal lb th cs i = 0)
  have hexcl : ¬(buyCount lb cs i = th ∧ sellCount lb cs i = th) := by
    rintro ⟨hb, hs⟩
    exact @counts_not_both lb cs i ⟨by omega, by omega⟩
  refine ⟨?_, ?_, ?_⟩
  · constructor
    · rintro ⟨h1, -⟩
      by_cases hb : buyCount lb cs i = th
      · exact hb
      · exfalso
        by_cases hs : sellCount lb cs i = th
        · rw [setupSignal, if_neg hb, if_pos hs] at h1; omega
        · rw [setupSignal, if_neg hb, if_neg hs] at h1; omega
    · intro hb
      exact ⟨by rw [setupSignal, if_pos hb],
        by rw [signalPosition, if_pos hb]⟩
  · constructor
    · rintro ⟨h1, -⟩
      by_cases hs : sellCount lb cs i = th
      · exact hs
      · exfalso
        by_cases hb : buyCount lb cs i = th
        · rw [setupSignal, if_pos hb] at h1; omega
        · rw [setupSignal, if_neg hb, if_neg hs] at h1; omega
    · intro hs
      have hb : ¬buyCount lb cs i = th := fun hb => hexcl ⟨hb, hs⟩
      exact ⟨by rw [setupSignal, if_neg hb, if_pos hs],
        by rw [signalPosition, if_neg hb, if_pos hs]⟩
  · intro hcase
    have hb : ¬buyCount lb cs i = th := by
      rcases hcase with h1 | h1 | h1 | h1
      · omega
      · omega
      · intro hb; exact @counts_not_both lb cs i ⟨by omega, by omega⟩
      · intro hb; exact @counts_not_both lb cs i ⟨by omega, by omega⟩
    have hs : ¬sellCount lb cs i = th := by
      rcases hcase with h1 | h1 | h1 | h1
      · intro hs; exact @counts_not_both lb cs i ⟨by omega, by omega⟩
      · intro hs; exact @counts_not_both lb cs i ⟨by omega, by omega⟩
      · omega
      · omega
    rw [setupSignal, if_neg hb, if_neg hs]

/-- Witness for `signal_threshold_exactness` at the concrete series
`rowsBuy7`, bar 6 (the bar on which the buy run reaches 3). -/
theorem signal_threshold_exactness_witness :
    (((annBuy7.getD 6 dAnn).setup_signal = 1 ∧
        (annBuy7.getD 6 dAnn).signal_position = "below") ↔
      (annBuy7.getD 6 dAnn).buy_setup_count = 3) ∧
    (((annBuy7.getD 6 dAnn).setup_signal = -1 ∧
        (annBuy7.getD 6 dAnn).signal_position = "above") ↔
      (annBuy7.getD 6 dAnn).sell_setup_count = 3) ∧
    ((annBuy7.getD 6 dAnn).buy_setup_count = 3 + 1 ∨
      (annBuy7.getD 6 dAnn).buy_setup_count = 3 + 2 ∨
      (annBuy7.getD 6 dAnn).sell_setup_count = 3 + 1 ∨
      (annBuy7.getD 6 dAnn).sell_setup_count = 3 + 2 →
      (annBuy7.getD 6 dAnn).setup_signal = 0) :=
  signal_threshold_exactness 4 3 rowsBuy7 annBuy7 (by decide) (by decide) 6
    (by decide)

/-- **C5** (insufficient-history failure).  For every input series with fewer
than `lookback + 1` bars (including a series of length exactly `lookback`),
`calculate_td_setup` raises a `TDCalculationException` instead of returning
an annotated result. -/
theorem insufficient_history_error (lb th : ℕ) (rows : List RawBar)
    (h : rows.length < lb + 1) :
    calculate_td_setup lb th rows =
      .error (if rows.isEmpty then CalcError.emptyInput
              else CalcError.insufficientData) ∧
    CalcError.isTDCalculationException
      (if rows.isEmpty then CalcError.emptyInput
       else CalcError.insufficientData) = true := by
  by_cases he : rows.isEmpty = true
  · rw [if_pos he]
    exact ⟨by rw [calculate_td_setup, if_pos he], rfl⟩
  · rw [if_neg he]
    exact ⟨by rw [calculate_td_setup, if_neg he, if_pos h], rfl⟩

/-- Witness for `insufficient_history_error`: a 4-bar series with the default
lookback 4 is rejected. -/
theorem insufficient_history_error_witness :
    calculate_td_setup 4 3 rows4 =
      .error (if rows4.isEmpty then CalcError.emptyInput
              else CalcError.insufficientData) ∧
    CalcError.isTDCalculationException
      (if rows4.isEmpty then CalcError.emptyInput
       else CalcError.insufficientData) = true :=
  insufficient_history_error 4 3 rows4 (by decide)

lemma sellSetupFlag_false_of_lt {lb : ℕ} {cs : List ℚ} {i : ℕ} (h : i < lb) :
    sellSetupFlag lb cs i = false := by
  simp [sellSetupFlag]; omega

/-- **C2** counterexample.  On 20 strictly decreasing daily bars (lookback 4,
threshold 3) the engine marks the first Buy at bar index 6: bar index 7 —
which the claim designates — carries no signal and has buy count 4. -/
theorem scenario_a_counterexample :
    (∀ i, i < 19 →
      (rows20.getD (i + 1) dRaw).close < (rows20.getD i dRaw).close) ∧
    (ann20.getD 7 dAnn).setup_signal = 0 ∧
    (ann20.getD 7 dAnn).buy_setup_count = 4 ∧
    (ann20.getD 6 dAnn).setup_signal = 1 ∧
    (ann20.getD 6 dAnn).buy_setup_count = 3 := by decide

/-- **C2** amended.  For every series of 20 bars whose annotated closes
strictly decrease at each step (lookback 4, threshold 3), bar index 6
(0-based, the 7th bar) is the first bar marked Buy, and it carries
`buy_setup_count = 3`; every earlier bar carries no signal. -/
theorem scenario_a_amended (rows : List RawBar) (ann : List AnnBar)
    (h : calculate_td_setup 4 3 rows = .ok ann) (hlen : ann.length = 20)
    (hdec : ∀ i, i < 19 →
      (ann.getD (i + 1) dAnn).close < (ann.getD i dAnn).close) :
    (ann.getD 6 dAnn).setup_signal = 1 ∧
    (ann.getD 6 dAnn).buy_setup_count = 3 ∧
    ∀ j, j < 6 → (ann.getD j dAnn).setup_signal = 0 := by
  obtain ⟨-, bars, hv, rfl⟩ := calculate_ok h
  rw [annotate_length] at hlen
  set cs := bars.map Bar.close with hcsdef
  have hcslen : cs.length = 20 := by simp [hcsdef, hlen]
  have hclose : ∀ i, i < 20 →
      ((annotate 4 3 bars).getD i dAnn).close = cs.getD i 0 := by
    intro i hi
    rw [annotate_getD 4 3 bars i (by omega)]
    show (bars.getD i dBar).close = cs.getD i 0
    rw [map_close_getD bars i (by omega)]
  have hstep : ∀ i, i < 19 → cs.getD (i + 1) 0 < cs.getD i 0 := by
    intro i hi
    have hd := hdec i hi
    rwa [hclose (i + 1) (by omega), hclose i (by omega)] at hd
  have hlt4 : ∀ j, 4 ≤ j → j < 20 → cs.getD j 0 < cs.getD (j - 4) 0 := by
    intro j h4 h20
    obtain ⟨k, rfl⟩ : ∃ k, j = k + 4 := ⟨j - 4, by omega⟩
    have e : k + 4 - 4 = k := by omega
    rw [e]
    have h0 := hstep k (by omega)
    have h1 : cs.getD (k + 2) 0 < cs.getD (k + 1) 0 := hstep (k + 1) (by omega)
    have h2 : cs.getD (k + 3) 0 < cs.getD (k + 2) 0 := hstep (k + 2) (by omega)
    have h3 : cs.getD (k + 4) 0 < cs.getD (k + 3) 0 := hstep (k + 3) (by omega)
    exact lt_trans (lt_trans (lt_trans h3 h2) h1) h0
  have hbflag : ∀ j, 4 ≤ j → j < 20 → buySetupFlag 4 cs j = true := by
    intro j h4 h20
    simp only [buySetupFlag, Bool.and_eq_true, decide_eq_true_eq]
    exact ⟨⟨h4, by omega⟩, hlt4 j h4 h20⟩
  have hsflag : ∀ j, j < 20 → sellSetupFlag 4 cs j = false := by
    intro j h20
    by_cases h4 : 4 ≤ j
    · cases hsf : sellSetupFlag 4 cs j with
      | false => rfl
      | true =>
        simp only [sellSetupFlag, Bool.and_eq_true, decide_eq_true_eq] at hsf
        exact absurd hsf.2 (not_lt.mpr (le_of_lt (hlt4 j h4 h20)))
    · exact sellSetupFlag_false_of_lt (by omega)
  have hb0 : ∀ j, j < 4 → buyCount 4 cs j = 0 :=
    fun j hj => (counts_zero_of_lt_lb 4 cs hj).1
  have hs0 : ∀ j, j < 20 → sellCount 4 cs j = 0 :=
    fun j hj => sellCount_eq_zero (hsflag j hj)
  have hbc4 : buyCount 4 cs 4 = 1 := by
    have f4 : buySetupFlag 4 cs (3 + 1) = true := hbflag 4 (by omega) (by omega)
    rw [show buyCount 4 cs 4 = buyCount 4 cs (3 + 1) from rfl,
        buyCount_succ, f4, if_pos rfl]
    have g : (4 < 3 + 1 && buySetupFlag 4 cs 3) = false := by
      have h34 : ¬(4 < 3 + 1) := by omega
      simp [h34]
    rw [g, if_neg (by simp)]
  have hbc5 : buyCount 4 cs 5 = 2 := by
    have f5 : buySetupFlag 4 cs (4 + 1) = true := hbflag 5 (by omega) (by omega)
    have f4 : buySetupFlag 4 cs 4 = true := hbflag 4 (by omega) (by omega)
    rw [show buyCount 4 cs 5 = buyCount 4 cs (4 + 1) from rfl,
        buyCount_succ, f5, if_pos rfl]
    have g : (4 < 4 + 1 && buySetupFlag 4 cs 4) = true := by simp [f4]
    rw [g, if_pos rfl, hbc4]
  have hbc6 : buyCount 4 cs 6 = 3 := by
    have f6 : buySetupFlag 4 cs (5 + 1) = true := hbflag 6 (by omega) (by omega)
    have f5 : buySetupFlag 4 cs 5 = true := hbflag 5 (by omega) (by omega)
    rw [show buyCount 4 cs 6 = buyCount 4 cs (5 + 1) from rfl,
        buyCount_succ, f6, if_pos rfl]
    have g : (4 < 5 + 1 && buySetupFlag 4 cs 5) = true := by simp [f5]
    rw [g, if_pos rfl, hbc5]
  refine ⟨?_, ?_, ?_⟩
  · rw [annotate_getD 4 3 bars 6 (by omega)]
    show setupSignal 4 3 cs 6 = 1
    rw [setupSignal, if_pos hbc6]
  · rw [annotate_getD 4 3 bars 6 (by omega)]
    exact hbc6
  · intro j hj
    rw [annotate_getD 4 3 bars j (by omega)]
    show setupSignal 4 3 cs j = 0
    interval_cases j
    · simp [setupSignal, hb0 0 (by omega), hs0 0 (by omega)]
    · simp [setupSignal, hb0 1 (by omega), hs0 1 (by omega)]
    · simp [setupSignal, hb0 2 (by omega), hs0 2 (by omega)]
    · simp [setupSignal, hb0 3 (by omega), hs0 3 (by omega)]
    · simp [setupSignal, hbc4, hs0 4 (by omega)]
    · simp [setupSignal, hbc5, hs0 5 (by omega)]

/-- Witness for `scenario_a_amended` at the concrete decreasing series
`rows20`. -/
theorem scenario_a_amended_witness :
    (ann20.getD 6 dAnn).setup_signal = 1 ∧
    (ann20.getD 6 dAnn).buy_setup_count = 3 ∧
    ∀ j, j < 6 → (ann20.getD j dAnn).setup_signal = 0 :=
  scenario_a_amended rows20 ann20 (by decide) (by decide) (by decide)

lemma toOption_eq_some {ε α : Type} {e : Except ε α} {a : α} :
    e.toOption = some a ↔ e = .ok a := by
  cases e <;> simp [Except.toOption]

lemma validateRow_ok_elim {r : RawBar} {b : Bar} (h : validateRow r = .ok b) :
    b.low ≤ min b.openv b.close ∧ max b.openv b.close ≤ b.high := by
  unfold validateRow at h
  split at h
  · split at h
    · exact absurd h (by simp)
    · split at h
      · exact absurd h (by simp)
      · rename_i hA hB
        injection h with h
        subst h
        exact ⟨not_lt.mp hB, not_lt.mp hA⟩
  all_goals exact absurd h (by simp)

lemma mem_of_validate_ok {rows : List RawBar} {l : List Bar} {b : Bar}
    (h : validate_kline_data rows = .ok l) (hb : b ∈ l) :
    ∃ r ∈ rows, validateRow r = .ok b := by
  unfold validate_kline_data at h
  split at h
  · exact absurd h (by simp)
  · injection h with h
    subst h
    obtain ⟨r, hr, hrb⟩ := List.mem_filterMap.mp hb
    exact ⟨r, hr, toOption_eq_some.mp hrb⟩

/-- **C6** counterexample.  `rowsC6` has 5 bars (= lookback + 1) of which the
last violates the OHLC relation: the validator drops it, only 4 bars — fewer
than lookback + 1 — remain, and yet the engine succeeds and returns a 4-bar
all-zero-run result instead of failing the series. -/
theorem bar_drop_policy_counterexample :
    validateRow (rowsC6.getD 4 dRaw) = .error .priceLogic ∧
    (calculate_td_setup 4 3 rowsC6).isOk = true ∧
    ((calculate_td_setup 4 3 rowsC6).toOption.getD []).length = 4 ∧
    ∀ a ∈ (calculate_td_setup 4 3 rowsC6).toOption.getD [],
      a.buy_setup_count = 0 ∧ a.sell_setup_count = 0 := by decide

/-- **C6** amended.  A bar violating
`low ≤ min(open, close) ≤ max(open, close) ≤ high` is dropped rather than
failing the series (every surviving bar satisfies the relation, and the
engine still succeeds); the series as a whole fails only when **no** bar
survives validation.  The `lookback + 1` minimum is enforced on the raw
length before the drops, so the surviving series may be shorter than
`lookback + 1`. -/
theorem bar_drop_policy_amended (lb th : ℕ) (rows : List RawBar)
    (hlen : lb + 1 ≤ rows.length) :
    (∀ l, validate_kline_data rows = .ok l →
      (∀ b ∈ l, b.low ≤ min b.openv b.close ∧ max b.openv b.close ≤ b.high) ∧
      ∃ ann, calculate_td_setup lb th rows = .ok ann ∧
        ann.length = l.length) ∧
    (validate_kline_data rows = .error .noValidBars ↔
      ∀ r ∈ rows, (validateRow r).isOk = false) := by
  have hne : ¬(rows.isEmpty = true) := by
    cases rows with
    | nil => simp at hlen
    | cons a l => simp
  constructor
  · intro l hv
    constructor
    · intro b hb
      obtain ⟨r, -, hr⟩ := mem_of_validate_ok hv hb
      exact validateRow_ok_elim hr
    · refine ⟨annotate lb th l, ?_, annotate_length lb th l⟩
      rw [calculate_td_setup, if_neg hne, if_neg (by omega), hv]
  · unfold validate_kline_data
    split <;> rename_i hemp
    · simp only [true_iff]
      rw [List.isEmpty_iff] at hemp
      intro r hr
      have hnone := List.filterMap_eq_nil_iff.mp hemp r hr
      cases hv : validateRow r with
      | error e => rfl
      | ok b => rw [hv] at hnone; simp [Except.toOption] at hnone
    · constructor
      · intro hcon
        exact absurd hcon (by simp)
      · intro hall
        exfalso
        apply hemp
        rw [List.isEmpty_iff]
        refine List.filterMap_eq_nil_iff.mpr fun r hr => ?_
        have hok := hall r hr
        cases hv : validateRow r with
        | error e => simp [Except.toOption]
        | ok b => rw [hv] at hok; simp [Except.isOk, Except.toBool] at hok

/-- Witness for `bar_drop_policy_amended` at the concrete series `rowsC6`. -/
theorem bar_drop_policy_amended_witness :
    (∀ b ∈ (validate_kline_data rowsC6).toOption.getD [],
      b.low ≤ min b.openv b.close ∧ max b.openv b.close ≤ b.high) ∧
    ∃ ann, calculate_td_setup 4 3 rowsC6 = .ok ann ∧
      ann.length = ((validate_kline_data rowsC6).toOption.getD []).length :=
  (bar_drop_policy_amended 4 3 rowsC6 (by decide)).1
    ((validate_kline_data rowsC6).toOption.getD []) (by decide)

lemma stepSS_eq (lb th : ℕ) (acc : SignalScanResult)
    (p : String × List RawBar) :
    stepSS lb th acc p =
      ⟨acc.records ++ (recordOf lb th p).toList, acc.processed + 1,
        acc.errors + (if errFlag lb th p then 1 else 0)⟩ := by
  unfold stepSS recordOf errFlag
  by_cases he : p.2.isEmpty = true
  · simp [he]
  · rw [Bool.not_eq_true] at he
    cases hc : calculate_td_setup lb th p.2 with
    | error e => simp [he, hc]
    | ok ann =>
      cases hl : ann.getLast? with
      | none => simp [he, hc, hl]
      | some last =>
        by_cases hs : last.setup_signal ≠ 0
        · simp [he, hc, hl, hs]
        · simp [he, hc, hl, hs]

lemma foldSS (lb th : ℕ) (stocks : List (String × List RawBar)) :
    ∀ acc, stocks.foldl (stepSS lb th) acc =
      ⟨acc.records ++ stocks.filterMap (recordOf lb th),
        acc.processed + stocks.length,
        acc.errors + stocks.countP (errFlag lb th)⟩ := by
  induction stocks with
  | nil => intro acc; simp
  | cons p rest ih =>
    intro acc
    rw [List.foldl_cons, stepSS_eq, ih]
    cases hr : recordOf lb th p <;> cases hf : errFlag lb th p <;>
      simp [List.filterMap_cons, List.countP_cons, hr, hf] <;> omega

/-- **C7** counterexample.  Aggregating three series of which one is empty
and the other two end on a fired signal yields a 2-row table but a
failed-series count of **0**, not 1: the empty series is skipped without
being counted as an error. -/
theorem aggregator_tolerance_counterexample :
    (get_signal_stocks 4 3 stocksCE).records.length = 2 ∧
    (get_signal_stocks 4 3 stocksCE).errors = 0 := by decide

/-- **C7** amended.  Aggregation never aborts: it always returns a table,
processing every series; each series contributes its latest-bar signal
record via `recordOf`; a nonempty series whose calculation raises is skipped
and counted in `error_count` (`errFlag`); an **empty** series is skipped
**without** being counted as an error. -/
theorem aggregator_tolerance_amended (lb th : ℕ)
    (stocks : List (String × List RawBar)) :
    (get_signal_stocks lb th stocks).records =
      stocks.filterMap (recordOf lb th) ∧
    (get_signal_stocks lb th stocks).processed = stocks.length ∧
    (get_signal_stocks lb th stocks).errors =
      stocks.countP (errFlag lb th) ∧
    (∀ code data, data ≠ [] → (calculate_td_setup lb th data).isOk = false →
      errFlag lb th (code, data) = true) ∧
    (∀ code, errFlag lb th (code, []) = false ∧
      recordOf lb th (code, []) = none) := by
  have hmain : get_signal_stocks lb th stocks =
      ⟨stocks.filterMap (recordOf lb th), stocks.length,
        stocks.countP (errFlag lb th)⟩ := by
    unfold get_signal_stocks
    by_cases he : stocks.isEmpty = true
    · rw [if_pos he]
      cases stocks with
      | nil => simp
      | cons a t => simp at he
    · rw [if_neg he, foldSS]
      simp
  refine ⟨by rw [hmain], by rw [hmain], by rw [hmain], ?_, ?_⟩
  · intro code data hne hcalc
    unfold errFlag
    have hde : data.isEmpty = false := by
      cases data with
      | nil => exact absurd rfl hne
      | cons a t => rfl
    cases hc : calculate_td_setup lb th data with
    | error e => simp [hde, hc]
    | ok ann => rw [hc] at hcalc; simp [Except.isOk, Except.toBool] at hcalc
  · intro code
    exact ⟨rfl, rfl⟩

/-- **C8** counterexample.  Invoked on an empty input map, the aggregator
returns a normal empty Signal Table (no exception of any kind — the source
has no `AggregationError`), and the summary builder returns a normal zero
summary. -/
theorem empty_input_counterexample :
    get_signal_stocks 4 3 [] = ⟨[], 0, 0⟩ ∧
    get_signal_summary [] = ⟨0, 0, 0, none, none, [], none⟩ := by decide

/-- **C8** amended.  For every configuration, an empty input map makes
`get_signal_stocks` return the empty table with zero processed and zero
error counts (after logging a warning), and `get_signal_summary` of an empty
table is the zero summary; neither raises. -/
theorem empty_input_amended (lb th : ℕ) :
    get_signal_stocks lb th [] = ⟨[], 0, 0⟩ ∧
    get_signal_summary [] = ⟨0, 0, 0, none, none, [], none⟩ := by
  exact ⟨by simp [get_signal_stocks], rfl⟩

lemma mem_dedupByDate {l : List Bar} {b : Bar} :
    ∀ {seen : List ℤ}, b ∈ dedupByDate seen l → b ∈ l := by
  induction l with
  | nil => intro seen h; simp [dedupByDate] at h
  | cons a t ih =>
    intro seen h
    rw [dedupByDate] at h
    split at h
    · exact List.mem_cons_of_mem a (ih h)
    · rcases List.mem_cons.mp h with rfl | h2
      · exact List.mem_cons_self _ _
      · exact List.mem_cons_of_mem _ (ih h2)

lemma dedupByDate_nodup (l : List Bar) :
    ∀ seen, ((dedupByDate seen l).map Bar.date).Nodup ∧
      ∀ b ∈ dedupByDate seen l, b.date ∉ seen := by
  induction l with
  | nil => intro seen; simp [dedupByDate]
  | cons a t ih =>
    intro seen
    rw [dedupByDate]
    split <;> rename_i hmem
    · exact ih seen
    · obtain ⟨ihn, ihs⟩ := ih (a.date :: seen)
      constructor
      · rw [List.map_cons]
        refine List.nodup_cons.mpr ⟨?_, ihn⟩
        intro hmem2
        obtain ⟨b, hb, hbd⟩ := List.mem_map.mp hmem2
        apply ihs b hb
        rw [hbd]
        exact List.mem_cons_self _ _
      · intro b hb
        rcases List.mem_cons.mp hb with rfl | hb2
        · exact hmem
        · intro hbs
          exact (ihs b hb2) (List.mem_cons_of_mem _ hbs)

lemma insertByDate_perm (b : Bar) (l : List Bar) :
    List.Perm (insertByDate b l) (b :: l) := by
  induction l with
  | nil => exact List.Perm.refl _
  | cons x xs ih =>
    rw [insertByDate]
    split
    · exact List.Perm.refl _
    · exact (List.Perm.cons x ih).trans (List.Perm.swap b x xs)

lemma sortByDate_perm (l : List Bar) : List.Perm (sortByDate l) l := by
  induction l with
  | nil => exact List.Perm.refl _
  | cons b t ih =>
    rw [sortByDate]
    exact (insertByDate_perm b (sortByDate t)).trans (List.Perm.cons b ih)

lemma insertByDate_sorted (b : Bar) :
    ∀ l : List Bar, (l.Pairwise fun x y => x.date ≤ y.date) →
      (insertByDate b l).Pairwise fun x y => x.date ≤ y.date := by
  intro l
  induction l with
  | nil => intro h; simp [insertByDate]
  | cons x xs ih =>
    intro h
    rw [insertByDate]
    split <;> rename_i hbx
    · refine List.Pairwise.cons ?_ h
      intro y hy
      rcases List.mem_cons.mp hy with rfl | hy2
      · exact hbx
      · exact le_trans hbx (List.rel_of_pairwise_cons h hy2)
    · refine List.Pairwise.cons ?_ (ih h.of_cons)
      intro y hy
      rcases List.mem_cons.mp ((insertByDate_perm b xs).mem_iff.mp hy)
        with rfl | hy2
      · exact le_of_not_le hbx
      · exact List.rel_of_pairwise_cons h hy2

lemma sortByDate_sorted (l : List Bar) :
    (sortByDate l).Pairwise fun x y => x.date ≤ y.date := by
  induction l with
  | nil => simp [sortByDate]
  | cons b t ih =>
    rw [sortByDate]
    exact insertByDate_sorted b (sortByDate t) ih

/-- **C9** counterexample.  The validation the Setup Counter applies before
counting (`validate_kline_data`) neither de-duplicates by date nor sorts:
feeding it five valid bars with a duplicated date 3 and strictly descending
dates, the engine succeeds and the annotated series keeps the duplicate and
the descending order, `[3, 3, 2, 1, 0]`. -/
theorem validator_passthrough_counterexample :
    (calculate_td_setup 4 3 rowsC9).isOk = true ∧
    ((calculate_td_setup 4 3 rowsC9).toOption.getD []).map AnnBar.date =
      [3, 3, 2, 1, 0] := by decide

/-- **C9** amended.  De-duplication by date (keeping the first occurrence)
and ascending date sorting are performed by the separate cleaning step
`clean_kline_data` of the fetch layer, not by the validation the Setup
Counter invokes: every series cleaned by `clean_kline_data` has strictly
increasing dates (hence exactly one bar per date) and contains only bars
validated from the input, with no interpolated trading days. -/
theorem cleaner_dedup_sort_amended (rows : List RawBar) (l : List Bar)
    (h : clean_kline_data rows = .ok l) :
    l.Pairwise (fun a b => a.date < b.date) ∧
    ∀ b ∈ l, ∃ r ∈ rows, validateRow r = .ok b := by
  unfold clean_kline_data at h
  split at h <;> rename_i l0 hv
  · exact absurd h (by simp)
  · split at h
    · exact absurd h (by simp)
    · injection h with h
      subst h
      have hperm := sortByDate_perm (dedupByDate [] l0)
      have hsorted := sortByDate_sorted (dedupByDate [] l0)
      obtain ⟨hnodup, -⟩ := dedupByDate_nodup l0 []
      have hnodup2 : ((sortByDate (dedupByDate [] l0)).map Bar.date).Nodup :=
        ((hperm.map Bar.date).nodup_iff).mpr hnodup
      constructor
      · have hne : (sortByDate (dedupByDate [] l0)).Pairwise
            (fun a b => a.date ≠ b.date) := List.pairwise_map.mp hnodup2
        exact (hsorted.and hne).imp fun hab => lt_of_le_of_ne hab.1 hab.2
      · intro b hb
        exact mem_of_validate_ok hv (mem_dedupByDate (hperm.mem_iff.mp hb))

/-- Witness for `cleaner_dedup_sort_amended` at the concrete scrambled
series `rows10d`. -/
theorem cleaner_dedup_sort_amended_witness :
    ((clean_kline_data rows10d).toOption.getD []).Pairwise
      (fun a b => a.date < b.date) ∧
    ∀ b ∈ (clean_kline_data rows10d).toOption.getD [],
      ∃ r ∈ rows10d, validateRow r = .ok b :=
  cleaner_dedup_sort_amended rows10d
    ((clean_kline_data rows10d).toOption.getD []) (by decide)

lemma validate_price_ok {p q : ℚ} (h : validate_price p = .ok q) :
    q = round2 p := by
  unfold validate_price at h
  split at h
  · exact absurd h (by simp)
  · split at h
    · exact absurd h (by simp)
    · injection h with h; exact h.symm

/-- **C10** (implicit price rounding).  Every bar accepted by the validator
carries open/high/low/close equal to the raw values rounded to 2 decimal
places; consequently the Setup Counter compares rounded closes: in `rowsC10`
the raw closes of bars 8 and 4 differ by less than 0.005, become equal after
validation, and reset both runs at bar 8 (where the buy run had reached 4 at
bar 7). -/
theorem price_rounding (r : RawBar) (b : Bar) (h : validateRow r = .ok b) :
    (b.openv = round2 r.openv ∧ b.high = round2 r.high ∧
      b.low = round2 r.low ∧ b.close = round2 r.close) ∧
    ((rowsC10.getD 8 dRaw).close ≠ (rowsC10.getD 4 dRaw).close ∧
      |(rowsC10.getD 8 dRaw).close - (rowsC10.getD 4 dRaw).close| < 1/200 ∧
      round2 (rowsC10.getD 8 dRaw).close = round2 (rowsC10.getD 4 dRaw).close ∧
      (annC10.getD 7 dAnn).buy_setup_count = 4 ∧
      (annC10.getD 8 dAnn).buy_setup_count = 0 ∧
      (annC10.getD 8 dAnn).sell_setup_count = 0) := by
  refine ⟨?_, by decide⟩
  unfold validateRow at h
  split at h
  · rename_i o hi lo c v ho hhi hlo hcl hvol
    split at h
    · exact absurd h (by simp)
    · split at h
      · exact absurd h (by simp)
      · injection h with h
        subst h
        exact ⟨validate_price_ok ho, validate_price_ok hhi,
          validate_price_ok hlo, validate_price_ok hcl⟩
  all_goals exact absurd h (by simp)

/-- Witness for `price_rounding`: the raw close 10.001 is accepted and
rounded to 10.00. -/
theorem price_rounding_witness :
    (((validateRow (mkSimpleRaw 0 (10001/1000))).toOption.getD dBar).openv =
        round2 (mkSimpleRaw 0 (10001/1000)).openv ∧
      ((validateRow (mkSimpleRaw 0 (10001/1000))).toOption.getD dBar).high =
        round2 (mkSimpleRaw 0 (10001/1000)).high ∧
      ((validateRow (mkSimpleRaw 0 (10001/1000))).toOption.getD dBar).low =
        round2 (mkSimpleRaw 0 (10001/1000)).low ∧
      ((validateRow (mkSimpleRaw 0 (10001/1000))).toOption.getD dBar).close =
        round2 (mkSimpleRaw 0 (10001/1000)).close) ∧
    ((rowsC10.getD 8 dRaw).close ≠ (rowsC10.getD 4 dRaw).close ∧
      |(rowsC10.getD 8 dRaw).close - (rowsC10.getD 4 dRaw).close| < 1/200 ∧
      round2 (rowsC10.getD 8 dRaw).close = round2 (rowsC10.getD 4 dRaw).close ∧
      (annC10.getD 7 dAnn).buy_setup_count = 4 ∧
      (annC10.getD 8 dAnn).buy_setup_count = 0 ∧
      (annC10.getD 8 dAnn).sell_setup_count = 0) :=
  price_rounding (mkSimpleRaw 0 (10001/1000))
    ((validateRow (mkSimpleRaw 0 (10001/1000))).toOption.getD dBar) (by decide)
